import Mathlib

/-!
Verification of the tick-to-candle aggregator, SMA/VWAP signal detectors,
position/order lifecycle guard and scheduler loop of the GANGU_PRO trading
system.  The definitions below are a shallow embedding of the Python source
(`main.py`, `strategies/vwap.py`, `fyers_api/trade_handler.py`, `config.py`):
prices and volumes are rationals, timestamps are epoch seconds as naturals,
Python dicts become association lists, and the external broker call becomes
an explicit `PlaceResult` argument.
-/

namespace GanguPro

/-- Python `dict.get`: first binding in the association list, if any. -/
def dictGet {β : Type} (m : List (String × β)) (k : String) : Option β :=
  match m with
  | [] => none
  | (k', v) :: rest => if k' = k then some v else dictGet rest k

/-- Python `d[k] = v`: replace the binding in place, or append a new one. -/
def dictSet {β : Type} (m : List (String × β)) (k : String) (v : β) :
    List (String × β) :=
  match m with
  | [] => [(k, v)]
  | (k', v') :: rest =>
    if k' = k then (k', v) :: rest else (k', v') :: dictSet rest k v

/-- A live or closed 1-minute candle, as built by `process_market_data` in
`main.py`.  `volume` is always initialised to 0 and never updated; the
session-cumulative volume `vol_traded_today` of the latest tick is stored in
`cumulativeDayVolume` (the tick may lack the field, hence `Option`). -/
structure Candle where
  openP : ℚ
  high : ℚ
  low : ℚ
  close : ℚ
  volume : ℚ
  cumulativeDayVolume : Option ℚ
  timestamp : ℕ
deriving DecidableEq, Repr

/-- An inbound websocket data item, with the fields `process_market_data`
reads.  `msgType` is the item's `type` field; every payload field may be
absent, matching `dict.get`. -/
structure DataItem where
  msgType : Option String
  symbol : Option String
  ltp : Option ℚ
  volTradedToday : Option ℚ
  timestamp : Option ℕ
  lastTradedTime : Option ℕ
deriving DecidableEq, Repr

/-- `datetime.replace(second=0, microsecond=0)` on an epoch-second clock:
truncate to the start of the minute. -/
def minuteStart (t : ℕ) : ℕ := 60 * (t / 60)

/-- Python's `a or b` on optional numbers: `None` and `0` are falsy. -/
def pyOrNat (a b : Option ℕ) : Option ℕ :=
  match a with
  | some n => if n = 0 then b else some n
  | none => b

/-- The tick timestamp `process_market_data` ends up using:
`data_item.get("timestamp") or data_item.get("last_traded_time")`, falling
back to the wall clock `now` when the result is falsy. -/
def resolveTickTime (now : ℕ) (item : DataItem) : ℕ :=
  match pyOrNat item.timestamp item.lastTradedTime with
  | some n => if n = 0 then now else n
  | none => now

/-- The fresh live candle created on the first tick of a new interval. -/
def freshCandle (ltp : ℚ) (vol : Option ℚ) (ms : ℕ) : Candle :=
  { openP := ltp, high := ltp, low := ltp, close := ltp, volume := 0,
    cumulativeDayVolume := vol, timestamp := ms }

/-- `process_market_data` from `main.py`: updates the `live_candles` dict from
one inbound data item.  `now` is the ingestion-time wall clock used when the
tick carries no usable timestamp. -/
def process_market_data (now : ℕ) (item : DataItem)
    (live : List (String × Candle)) : List (String × Candle) :=
  if item.msgType ≠ some "df" then live
  else
    match item.symbol, item.ltp with
    | some sym, some ltp =>
      if sym = "" then live
      else
        let ms := minuteStart (resolveTickTime now item)
        match dictGet live sym with
        | some c =>
          if c.timestamp = ms then
            dictSet live sym
              { c with high := max c.high ltp, low := min c.low ltp,
                       close := ltp, cumulativeDayVolume := item.volTradedToday }
          else dictSet live sym (freshCandle ltp item.volTradedToday ms)
        | none => dictSet live sym (freshCandle ltp item.volTradedToday ms)
    | _, _ => live

/-- A well-formed tick data item carrying all fields. -/
def mkTick (sym : String) (ltp vol : ℚ) (ts : ℕ) : DataItem :=
  { msgType := some "df", symbol := some sym, ltp := some ltp,
    volTradedToday := some vol, timestamp := some ts, lastTradedTime := none }

/-- A directional trading signal; Python uses the strings "BUY"/"SELL" and
`None`, embedded here as `Option Signal`. -/
inductive Signal | BUY | SELL
deriving DecidableEq, Repr

/-! Module-level configuration constants of `main.py`. -/

def SHORT_SMA_PERIOD : ℕ := 5

def LONG_SMA_PERIOD : ℕ := 20

def CANDLE_HISTORY_LIMIT : ℕ := max SHORT_SMA_PERIOD LONG_SMA_PERIOD + 5

def TRADE_QUANTITY : ℤ := 1

def TARGET_PERCENTAGE : ℚ := 1/2

def STOP_LOSS_PERCENTAGE : ℚ := 1/4

def TRAILING_SL_POINTS : ℚ := 1/10

/-- `calculate_sma` from `main.py`: mean of the last `period` data points,
`None` when fewer are available.  `data_points[-period:]` is embedded as
dropping all but the last `period` elements (the source is only ever called
with `period ≥ 1`; `period = 0` would raise `ZeroDivisionError` there). -/
def calculate_sma (dataPoints : List ℚ) (period : ℕ) : Option ℚ :=
  if dataPoints.length < period then none
  else some ((dataPoints.drop (dataPoints.length - period)).sum / period)

/-- `check_sma_crossover` from `main.py`.  The source reads the module
globals `SHORT_SMA_PERIOD`/`LONG_SMA_PERIOD` and
`completed_candle_history[symbol]`; both are parameters here. -/
def check_sma_crossover (shortP longP : ℕ) (history : List Candle) :
    Option Signal :=
  if history.length < longP then none
  else
    let closePrices := history.map (·.close)
    match calculate_sma closePrices shortP, calculate_sma closePrices longP with
    | some shortSma, some longSma =>
      if history.length < longP + 1 then none
      else
        let prevClosePrices := closePrices.dropLast
        match calculate_sma prevClosePrices shortP,
              calculate_sma prevClosePrices longP with
        | some prevShortSma, some prevLongSma =>
          if shortSma > longSma ∧ prevShortSma ≤ prevLongSma then some .BUY
          else if shortSma < longSma ∧ prevShortSma ≥ prevLongSma then
            some .SELL
          else none
        | _, _ => none
    | _, _ => none

/-- Python `round(x)` on a half-integer rounds to the even neighbour. -/
def roundHalfEven (x : ℚ) : ℤ :=
  if x - ⌊x⌋ < 1/2 then ⌊x⌋
  else if (1 : ℚ)/2 < x - ⌊x⌋ then ⌊x⌋ + 1
  else if ⌊x⌋ % 2 = 0 then ⌊x⌋ else ⌊x⌋ + 1

/-- Python `round(x, 2)`: round to two decimal places, ties to even. -/
def pyRound2 (x : ℚ) : ℚ := (roundHalfEven (x * 100) : ℚ) / 100

/-- The open position record `execute_trade` stores in `current_positions`. -/
structure Position where
  side : Signal
  quantity : ℤ
  entryPrice : ℚ
  orderId : Option String
deriving DecidableEq, Repr

/-- The bracket-order payload `execute_trade` hands to
`fyers_rest_client.place_order`. -/
structure OrderData where
  symbol : String
  qty : ℤ
  type : ℤ
  side : ℤ
  productType : String
  limitPrice : ℚ
  stopPrice : ℚ
  validity : String
  disclosedQty : ℤ
  offlineOrder : Bool
  price : ℚ
  orderType : ℤ
  stopLoss : ℚ
  takeProfit : ℚ
  trailingStopLoss : ℚ
deriving DecidableEq, Repr

/-- Outcome of the external `place_order` call: a response dict with a `code`
and optional `id`, a falsy (`None`) response, or a raised exception. -/
inductive PlaceResult
  | resp (code : ℤ) (id : Option String)
  | respNone
  | raised
deriving DecidableEq, Repr

/-- Which log/notification branch `execute_trade` took. -/
inductive LogEvent
  | clientNotInitialized
  | skipReentry
  | attemptOrder
  | orderPlaced
  | orderFailed
  | orderException
deriving DecidableEq, Repr

/-- Result of one `execute_trade` call: the updated position tracker, the
order payload submitted to the broker (if any), and the log trail. -/
structure TradeOutcome where
  positions : List (String × Position)
  submitted : Option OrderData
  logs : List LogEvent
deriving DecidableEq, Repr

/-- `execute_trade` from `main.py`.  `clientInit` models whether the global
`fyers_rest_client` has been initialised; the broker's reply is the explicit
`result` argument.  The source also computes `target_price` and
`stop_loss_price`, which it never uses; only `sl_points`/`tp_points` reach
the payload. -/
def execute_trade (clientInit : Bool) (sym : String) (signalType : Signal)
    (currentPrice : ℚ) (result : PlaceResult)
    (positions : List (String × Position)) : TradeOutcome :=
  if clientInit = false then ⟨positions, none, [.clientNotInitialized]⟩
  else
    match dictGet positions sym with
    | some _ => ⟨positions, none, [.skipReentry]⟩
    | none =>
      let side : ℤ := if signalType = .BUY then 1 else -1
      let slPoints := pyRound2 (currentPrice * (STOP_LOSS_PERCENTAGE / 100))
      let tpPoints := pyRound2 (currentPrice * (TARGET_PERCENTAGE / 100))
      let orderData : OrderData :=
        { symbol := sym,
          qty := if signalType = .BUY then TRADE_QUANTITY else -TRADE_QUANTITY,
          type := 2, side := side, productType := "BO", limitPrice := 0,
          stopPrice := 0, validity := "DAY", disclosedQty := 0,
          offlineOrder := false, price := 0, orderType := 1,
          stopLoss := slPoints, takeProfit := tpPoints,
          trailingStopLoss := TRAILING_SL_POINTS }
      match result with
      | .resp code id =>
        if code = 200 then
          ⟨dictSet positions sym
             ⟨signalType, TRADE_QUANTITY, currentPrice, id⟩,
           some orderData, [.attemptOrder, .orderPlaced]⟩
        else ⟨positions, some orderData, [.attemptOrder, .orderFailed]⟩
      | .respNone => ⟨positions, some orderData, [.attemptOrder, .orderFailed]⟩
      | .raised => ⟨positions, some orderData, [.attemptOrder, .orderException]⟩

/-! The scheduler loop of `main()` in `main.py`. -/

/-- `market_close_time_utc = time(10, 0, 0)` as seconds past UTC midnight. -/
def market_close_time_utc : ℕ := 10 * 3600

/-- `market_open_time_utc = time(3, 45, 0)` from `config.py` (defined there
but never consulted by the loop in `main.py`). -/
def market_open_time_utc : ℕ := 3 * 3600 + 45 * 60

/-- The mutable state the scheduler loop reads and writes: the live-candle
dict, the per-symbol closed-candle history, the position tracker and
`last_minute_checked`. -/
structure SchedState where
  live : List (String × Candle)
  history : List (String × List Candle)
  positions : List (String × Position)
  lastMinuteChecked : Option ℕ
deriving DecidableEq, Repr

/-- Body of the per-symbol block inside the boundary branch of `main()`'s
loop: when the symbol's live candle is older than the new minute boundary,
append a copy to the history (evicting the oldest past
`CANDLE_HISTORY_LIMIT`), run `check_sma_crossover` and, on a signal,
`execute_trade` at the just-closed candle's close.  `resp` supplies the
broker's reply per symbol, `clientInit` whether the REST client exists. -/
def processSymbol (currentMinuteStart : ℕ) (resp : String → PlaceResult)
    (clientInit : Bool) (st : SchedState) (sym : String) : SchedState :=
  match dictGet st.live sym with
  | none => st
  | some candle =>
    if candle.timestamp < currentMinuteStart then
      let hist0 := ((dictGet st.history sym).getD []) ++ [candle]
      let hist := if CANDLE_HISTORY_LIMIT < hist0.length
                  then hist0.drop 1 else hist0
      let st1 : SchedState := { st with history := dictSet st.history sym hist }
      match check_sma_crossover SHORT_SMA_PERIOD LONG_SMA_PERIOD hist with
      | some sig =>
        let out := execute_trade clientInit sym sig candle.close (resp sym)
          st1.positions
        { st1 with positions := out.positions }
      | none => st1
    else st

/-- The boundary branch of the loop: process every symbol currently holding a
live candle (in dict order), then record the boundary in
`last_minute_checked`. -/
def schedulerPass (nowEpoch : ℕ) (resp : String → PlaceResult)
    (clientInit : Bool) (st : SchedState) : SchedState :=
  let cms := minuteStart nowEpoch
  let st' := (st.live.map Prod.fst).foldl (processSymbol cms resp clientInit) st
  { st' with lastMinuteChecked := some cms }

/-- One iteration of the `while True` loop in `main()`:  exit (second
component `true`) once the UTC time of day reaches `market_close_time_utc`;
otherwise run the boundary branch when the minute has advanced.  There is no
check against `market_open_time_utc` anywhere in the loop. -/
def schedulerStep (nowEpoch : ℕ) (resp : String → PlaceResult)
    (clientInit : Bool) (st : SchedState) : SchedState × Bool :=
  let tod := nowEpoch % 86400
  if market_close_time_utc ≤ tod then (st, true)
  else
    match st.lastMinuteChecked with
    | none => (schedulerPass nowEpoch resp clientInit st, false)
    | some lm =>
      if lm < minuteStart nowEpoch
      then (schedulerPass nowEpoch resp clientInit st, false)
      else (st, false)

/-! The VWAP strategy of `strategies/vwap.py`. -/

/-- A candle row of the DataFrame handed to `VWAPStrategy.calculate_vwap`. -/
structure VCandle where
  high : ℚ
  low : ℚ
  close : ℚ
  volume : ℚ
deriving DecidableEq, Repr

/-- The typical price `(high + low + close) / 3` used by `pandas_ta`'s
`vwap`. -/
def hlc3 (c : VCandle) : ℚ := (c.high + c.low + c.close) / 3

/-- The last value of the `VWAP` column `candles_df.ta.vwap(append=True)`
produces for a single-session frame: the cumulative volume-weighted mean of
the typical price over the whole frame. -/
def vwapOf (candles : List VCandle) : ℚ :=
  (candles.map (fun c => hlc3 c * c.volume)).sum /
    (candles.map (·.volume)).sum

/-- `VWAPStrategy.calculate_vwap`: store the frame's latest VWAP value under
the symbol (the `volume`-column check always passes here since `VCandle`
carries a volume; an empty frame produces no `VWAP` column and stores
nothing). -/
def calculate_vwap (store : List (String × ℚ)) (sym : String)
    (candles : List VCandle) : List (String × ℚ) :=
  match candles with
  | [] => store
  | _ :: _ => dictSet store sym (vwapOf candles)

/-- `VWAPStrategy.check_signal`: BUY whenever the current price is strictly
above the stored VWAP, SELL whenever strictly below, otherwise `None`. -/
def vwap_check_signal (store : List (String × ℚ)) (sym : String)
    (currentLtp : ℚ) : Option Signal :=
  match dictGet store sym with
  | some vwap =>
    if currentLtp > vwap then some .BUY
    else if currentLtp < vwap then some .SELL
    else none
  | none => none

/-! Auxiliary specification-side functions and concrete inputs. -/

/-- Feed a whole list of data items through `process_market_data` in order,
as `on_message` does for a list-shaped websocket message. -/
def processTicks (now : ℕ) (items : List DataItem)
    (live : List (String × Candle)) : List (String × Candle) :=
  items.foldl (fun l i => process_market_data now i l) live

/-- `f` of the last element of the list, or `d` when it is empty. -/
def lastOf {α β : Type} (f : α → β) (d : β) : List α → β
  | [] => d
  | a :: as => lastOf f (f a) as

/-- The simple moving average over the last `p` entries (total function,
specification side). -/
def smaOfLast (closes : List ℚ) (p : ℕ) : ℚ :=
  (closes.drop (closes.length - p)).sum / p

/-- A closed candle whose only relevant field is its close. -/
def candleOfClose (c : ℚ) : Candle := freshCandle c none 0

/-- The closing-price history of the spec's SMA scenario. -/
def histC6 : List Candle :=
  [10, 10, 10, 10, 10, 11, 12, 13, 14, 15].map candleOfClose

/-- A broker stub whose reply is a falsy response for every symbol. -/
def respNoneAll : String → PlaceResult := fun _ => .respNone

/-- A live candle opened at 04:00:00 UTC (epoch second 14400). -/
def c4candle : Candle := freshCandle 100 (some 5) 14400

/-- Scheduler state holding the 04:00 live candle and an empty history. -/
def stC4 : SchedState := ⟨[("X", c4candle)], [("X", [])], [], none⟩

/-- A live candle opened at 03:00:00 UTC (epoch second 10800), before the
session opens at 03:45 UTC. -/
def c10candle : Candle := freshCandle 100 (some 5) 10800

/-- Scheduler state holding the pre-open live candle. -/
def stC10 : SchedState := ⟨[("X", c10candle)], [("X", [])], [], none⟩

/-! Dictionary lemmas shared by the proofs below. -/

theorem dictGet_dictSet_self {β : Type} (m : List (String × β)) (k : String)
    (v : β) : dictGet (dictSet m k v) k = some v := by
  induction m with
  | nil => simp [dictGet, dictSet]
  | cons hd tl ih =>
    obtain ⟨k', v'⟩ := hd
    by_cases h : k' = k <;> simp [dictGet, dictSet, h, ih]

theorem dictGet_dictSet_ne {β : Type} (m : List (String × β)) (k k' : String)
    (v : β) (h : k ≠ k') : dictGet (dictSet m k v) k' = dictGet m k' := by
  induction m with
  | nil => simp [dictGet, dictSet, h]
  | cons hd tl ih =>
    obtain ⟨k0, v0⟩ := hd
    by_cases h0 : k0 = k
    · subst h0
      simp [dictGet, dictSet, h]
    · simp [dictGet, dictSet, h0, ih]

theorem calculate_sma_of_le (xs : List ℚ) (p : ℕ) (h : p ≤ xs.length) :
    calculate_sma xs p = some (smaOfLast xs p) := by
  simp [calculate_sma, smaOfLast, Nat.not_lt.2 h]

/-- Processing any run of ticks that all fall inside the live candle's own
minute folds their prices into that candle: high/low accumulate max/min,
close and the cumulative session volume are overwritten by each tick. -/
theorem processTicks_same_minute (now : ℕ) (sym : String) (hsym : sym ≠ "")
    (m : ℕ) (ticks : List (ℚ × ℚ × ℕ))
    (hm : ∀ t ∈ ticks, minuteStart t.2.2 = m ∧ t.2.2 ≠ 0) :
    ∀ (live : List (String × Candle)) (c : Candle),
      dictGet live sym = some c → c.timestamp = m →
      dictGet (processTicks now
          (ticks.map (fun t => mkTick sym t.1 t.2.1 t.2.2)) live) sym =
        some { openP := c.openP,
               high := ticks.foldl (fun a t => max a t.1) c.high,
               low := ticks.foldl (fun a t => min a t.1) c.low,
               close := lastOf (fun t => t.1) c.close ticks,
               volume := c.volume,
               cumulativeDayVolume :=
                 lastOf (fun t => some t.2.1) c.cumulativeDayVolume ticks,
               timestamp := m } := by
  induction ticks with
  | nil =>
    intro live c hc hts
    rcases c with ⟨o, hi, lo, cl, v, cv, ts⟩
    simp_all [processTicks, lastOf]
  | cons t ts ih =>
    intro live c hc hts
    have htm : minuteStart t.2.2 = m := (hm t (by simp)).1
    have ht0 : t.2.2 ≠ 0 := (hm t (by simp)).2
    have hstep : process_market_data now (mkTick sym t.1 t.2.1 t.2.2) live =
        dictSet live sym
          { c with high := max c.high t.1, low := min c.low t.1,
                   close := t.1, cumulativeDayVolume := some t.2.1 } := by
      have : c.timestamp = minuteStart t.2.2 := by rw [htm, hts]
      simp [process_market_data, mkTick, resolveTickTime, pyOrNat, hsym, ht0,
        hc, this]
    have hrec := ih (fun x hx => hm x (by simp [hx]))
      (dictSet live sym
        { c with high := max c.high t.1, low := min c.low t.1,
                 close := t.1, cumulativeDayVolume := some t.2.1 })
      { c with high := max c.high t.1, low := min c.low t.1,
               close := t.1, cumulativeDayVolume := some t.2.1 }
      (dictGet_dictSet_self _ _ _) hts
    simpa [processTicks, hstep, lastOf] using hrec

/-- C1: if a position for the symbol is already present in
`current_positions` when `execute_trade` is called, the call is a logged
no-op: it submits no order and leaves the position tracker unchanged. -/
theorem execute_trade_no_reentry (sym : String) (sig : Signal) (price : ℚ)
    (result : PlaceResult) (positions : List (String × Position))
    (pos : Position) (h : dictGet positions sym = some pos) :
    (execute_trade true sym sig price result positions).positions = positions ∧
    (execute_trade true sym sig price result positions).submitted = none ∧
    (execute_trade true sym sig price result positions).logs =
      [LogEvent.skipReentry] := by
  simp [execute_trade, h]

/-- Witness for C1: a SELL signal arriving while a BUY position is open for
the same symbol changes nothing and submits nothing, even though the broker
would have accepted the order. -/
theorem execute_trade_no_reentry_witness :
    dictGet [("NSE:SBIN-EQ", (⟨Signal.BUY, 1, 100, none⟩ : Position))]
        "NSE:SBIN-EQ" = some ⟨Signal.BUY, 1, 100, none⟩ ∧
    (execute_trade true "NSE:SBIN-EQ" Signal.SELL 250 (.resp 200 (some "o1"))
        [("NSE:SBIN-EQ", ⟨Signal.BUY, 1, 100, none⟩)]).positions =
      [("NSE:SBIN-EQ", ⟨Signal.BUY, 1, 100, none⟩)] ∧
    (execute_trade true "NSE:SBIN-EQ" Signal.SELL 250 (.resp 200 (some "o1"))
        [("NSE:SBIN-EQ", ⟨Signal.BUY, 1, 100, none⟩)]).submitted = none := by
  refine ⟨by decide, ?_, ?_⟩
  · exact (execute_trade_no_reentry "NSE:SBIN-EQ" Signal.SELL 250
      (.resp 200 (some "o1")) [("NSE:SBIN-EQ", ⟨Signal.BUY, 1, 100, none⟩)]
      ⟨Signal.BUY, 1, 100, none⟩ (by decide)).1
  · exact (execute_trade_no_reentry "NSE:SBIN-EQ" Signal.SELL 250
      (.resp 200 (some "o1")) [("NSE:SBIN-EQ", ⟨Signal.BUY, 1, 100, none⟩)]
      ⟨Signal.BUY, 1, 100, none⟩ (by decide)).2.1

/-- C2 counterexample: a tick one minute older than the live candle's
interval is not dropped — `process_market_data` changes the candle state,
creating a fresh live candle at the older interval. -/
theorem stale_tick_not_dropped_cex :
    minuteStart 540 < (freshCandle 100 (some 5) 600).timestamp ∧
    process_market_data 1000 (mkTick "X" 50 7 540)
        [("X", freshCandle 100 (some 5) 600)] ≠
      [("X", freshCandle 100 (some 5) 600)] ∧
    dictGet (process_market_data 1000 (mkTick "X" 50 7 540)
        [("X", freshCandle 100 (some 5) 600)]) "X" =
      some (freshCandle 50 (some 7) 540) := by
  decide

/-- C2 amended: a tick whose minute-start is strictly older than the live
candle's interval is not dropped; it replaces the symbol's live candle with
a fresh candle (OHLC all equal to the tick's price) at the tick's own older
interval.  The closed-candle history is a separate structure that
`process_market_data` never touches, so finalized candles are indeed never
rewritten. -/
theorem stale_tick_replaces_live_candle (now : ℕ)
    (live : List (String × Candle)) (sym : String) (c : Candle)
    (ltp vol : ℚ) (ts : ℕ) (hsym : sym ≠ "") (hts : ts ≠ 0)
    (hc : dictGet live sym = some c)
    (hold : minuteStart ts < c.timestamp) :
    process_market_data now (mkTick sym ltp vol ts) live =
      dictSet live sym (freshCandle ltp (some vol) (minuteStart ts)) := by
  have hne : c.timestamp ≠ minuteStart ts := by omega
  simp [process_market_data, mkTick, resolveTickTime, pyOrNat, hsym, hts, hc,
    hne]

/-- Witness for the amended C2 at the counterexample's concrete input. -/
theorem stale_tick_replaces_live_candle_witness :
    process_market_data 1000 (mkTick "X" 50 7 540)
        [("X", freshCandle 100 (some 5) 600)] =
      dictSet [("X", freshCandle 100 (some 5) 600)] "X"
        (freshCandle 50 (some 7) (minuteStart 540)) :=
  stale_tick_replaces_live_candle 1000 [("X", freshCandle 100 (some 5) 600)]
    "X" (freshCandle 100 (some 5) 600) 50 7 540 (by decide) (by decide)
    (by decide) (by decide)

/-- C3: processing a non-empty tick sequence all falling in one minute,
starting with no live candle for the symbol, yields a live candle whose
open is the first tick's price, close the last tick's price, high/low the
running max/min of the prices, and whose cumulative session volume is the
last tick's `vol_traded_today` (overwritten, not summed). -/
theorem same_interval_candle_aggregation (now : ℕ) (sym : String)
    (hsym : sym ≠ "") (m : ℕ) (p0 v0 : ℚ) (t0 : ℕ)
    (h0 : minuteStart t0 = m) (h0' : t0 ≠ 0)
    (rest : List (ℚ × ℚ × ℕ))
    (hrest : ∀ t ∈ rest, minuteStart t.2.2 = m ∧ t.2.2 ≠ 0)
    (live : List (String × Candle)) (hlive : dictGet live sym = none) :
    dictGet (processTicks now (((p0, v0, t0) :: rest).map
        (fun t => mkTick sym t.1 t.2.1 t.2.2)) live) sym =
      some { openP := p0,
             high := rest.foldl (fun a t => max a t.1) p0,
             low := rest.foldl (fun a t => min a t.1) p0,
             close := lastOf (fun t => t.1) p0 rest,
             volume := 0,
             cumulativeDayVolume :=
               lastOf (fun t => some t.2.1) (some v0) rest,
             timestamp := m } := by
  have hstep : process_market_data now (mkTick sym p0 v0 t0) live =
      dictSet live sym (freshCandle p0 (some v0) m) := by
    simp [process_market_data, mkTick, resolveTickTime, pyOrNat, hsym, h0',
      hlive, h0]
  have hrec := processTicks_same_minute now sym hsym m rest hrest
    (dictSet live sym (freshCandle p0 (some v0) m))
    (freshCandle p0 (some v0) m) (dictGet_dictSet_self _ _ _) rfl
  simpa [processTicks, hstep, freshCandle] using hrec

/-- Witness for C3: the spec's scenario — ticks at 100 then 105 within one
minute yield the candle {open 100, high 105, low 100, close 105}. -/
theorem same_interval_candle_aggregation_witness :
    dictGet (processTicks 0
        [mkTick "X" 100 10 60, mkTick "X" 105 20 119] []) "X" =
      some { openP := 100, high := 105, low := 100, close := 105,
             volume := 0, cumulativeDayVolume := some 20,
             timestamp := 60 } := by
  have h := same_interval_candle_aggregation 0 "X" (by decide) 60 100 10 60
    (by decide) (by decide) [(105, 20, 119)] (by decide) [] rfl
  rw [show ([((100 : ℚ), (10 : ℚ), 60), ((105 : ℚ), (20 : ℚ), 119)].map
    (fun t => mkTick "X" t.1 t.2.1 t.2.2)) =
      [mkTick "X" 100 10 60, mkTick "X" 105 20 119] from rfl] at h
  rw [h]
  norm_num [lastOf, max_def, min_def]

/-- C4 (code bug): after a boundary pass finalizes a live candle, the candle
stays in `live_candles`; if no newer tick arrives, the next boundary pass
appends the very same candle to the history again, so the history holds a
duplicate and its interval-start timestamps are not strictly increasing. -/
theorem scheduler_duplicate_finalization :
    dictGet ((schedulerStep 14520 respNoneAll true
        (schedulerStep 14460 respNoneAll true stC4).1).1).history "X" =
      some [c4candle, c4candle] ∧
    ¬ List.Chain' (fun a b : Candle => a.timestamp < b.timestamp)
        [c4candle, c4candle] := by
  constructor
  · decide
  · simp [List.chain'_cons, List.chain'_singleton, c4candle, freshCandle]

/-- C5: with enough history the SMA-crossover detector returns BUY exactly
when the short SMA moves from ≤ the long SMA on the previous candle to
strictly greater on the current one, SELL on the mirror crossing and NONE
otherwise (ties count as not-above); with fewer than longPeriod + 1 candles
it returns NONE rather than an error. -/
theorem sma_crossover_characterization (shortP longP : ℕ)
    (hsl : shortP ≤ longP) (history : List Candle) :
    (history.length < longP + 1 →
      check_sma_crossover shortP longP history = none) ∧
    (longP + 1 ≤ history.length →
      (check_sma_crossover shortP longP history = some Signal.BUY ↔
        smaOfLast (history.map (·.close)) longP <
          smaOfLast (history.map (·.close)) shortP ∧
        smaOfLast ((history.map (·.close)).dropLast) shortP ≤
          smaOfLast ((history.map (·.close)).dropLast) longP) ∧
      (check_sma_crossover shortP longP history = some Signal.SELL ↔
        smaOfLast (history.map (·.close)) shortP <
          smaOfLast (history.map (·.close)) longP ∧
        smaOfLast ((history.map (·.close)).dropLast) longP ≤
          smaOfLast ((history.map (·.close)).dropLast) shortP) ∧
      (check_sma_crossover shortP longP history = none ↔
        ¬(smaOfLast (history.map (·.close)) longP <
            smaOfLast (history.map (·.close)) shortP ∧
          smaOfLast ((history.map (·.close)).dropLast) shortP ≤
            smaOfLast ((history.map (·.close)).dropLast) longP) ∧
        ¬(smaOfLast (history.map (·.close)) shortP <
            smaOfLast (history.map (·.close)) longP ∧
          smaOfLast ((history.map (·.close)).dropLast) longP ≤
            smaOfLast ((history.map (·.close)).dropLast) shortP))) := by
  have hml : (history.map (·.close)).length = history.length :=
    List.length_map _ _
  constructor
  · intro hlen
    by_cases h1 : history.length < longP
    · simp [check_sma_crossover, h1]
    · simp only [check_sma_crossover, if_neg h1, calculate_sma]
      split <;> simp [hlen]
  · intro hlen
    have h1 : ¬ history.length < longP := by omega
    have h4 : ¬ history.length < longP + 1 := by omega
    have hdl : ((history.map (·.close)).dropLast).length =
        history.length - 1 := by
      simp [List.length_dropLast]
    have e1 := calculate_sma_of_le (history.map (·.close)) shortP (by omega)
    have e2 := calculate_sma_of_le (history.map (·.close)) longP (by omega)
    have e3 := calculate_sma_of_le ((history.map (·.close)).dropLast) shortP
      (by omega)
    have e4 := calculate_sma_of_le ((history.map (·.close)).dropLast) longP
      (by omega)
    simp only [check_sma_crossover, if_neg h1, e1, e2, if_neg h4, e3, e4]
    set A := smaOfLast (history.map (·.close)) shortP with hA
    set B := smaOfLast (history.map (·.close)) longP with hB
    set pA := smaOfLast ((history.map (·.close)).dropLast) shortP with hpA
    set pB := smaOfLast ((history.map (·.close)).dropLast) longP with hpB
    split_ifs with hb hsell
    · exact ⟨iff_of_true rfl hb,
        iff_of_false (by simp) (fun h => absurd h.1 (asymm hb.1)),
        iff_of_false (by simp) (fun h => h.1 hb)⟩
    · exact ⟨iff_of_false (by simp) hb, iff_of_true rfl hsell,
        iff_of_false (by simp) (fun h => h.2 hsell)⟩
    · exact ⟨iff_of_false (by simp) hb, iff_of_false (by simp) hsell,
        iff_of_true rfl ⟨hb, hsell⟩⟩

/-- Witness for C5: closes [10, 10, 10, 5] with short = 2, long = 3 put the
short SMA strictly below the long SMA after a tie, so the detector fires
SELL. -/
theorem sma_crossover_characterization_witness :
    (2 : ℕ) ≤ 3 ∧
    3 + 1 ≤ ([(10 : ℚ), 10, 10, 5].map candleOfClose).length ∧
    check_sma_crossover 2 3 ([(10 : ℚ), 10, 10, 5].map candleOfClose) =
      some Signal.SELL := by
  refine ⟨by decide, by decide, ?_⟩
  have h := ((sma_crossover_characterization 2 3 (by decide)
    ([(10 : ℚ), 10, 10, 5].map candleOfClose)).2 (by decide)).2.1
  rw [h]
  constructor <;> norm_num [smaOfLast, candleOfClose, freshCandle]

/-- C6 counterexample: on closes [10,10,10,10,10,11,12,13,14,15] with
short = 3 and long = 5 the detector does not return BUY on the last candle
(the short SMA is already above the long SMA on the previous candle). -/
theorem sma_scenario_cex :
    check_sma_crossover 3 5 histC6 ≠ some Signal.BUY := by
  have h : check_sma_crossover 3 5 histC6 = none := by
    norm_num [check_sma_crossover, calculate_sma, histC6, candleOfClose,
      freshCandle]
  simp [h]

/-- C6 amended: on the full scenario history the detector returns NONE; the
BUY crossing fires earlier, on the prefix ending at the close of 11. -/
theorem sma_scenario_amended :
    check_sma_crossover 3 5 histC6 = none ∧
    check_sma_crossover 3 5 (histC6.take 6) = some Signal.BUY := by
  constructor <;>
    norm_num [check_sma_crossover, calculate_sma, histC6, candleOfClose,
      freshCandle]

/-- C7 counterexample: after a single candle of history the VWAP detector
already returns BUY for a price above the VWAP, with no previous close
below any deviation band — refuting both the two-candle requirement and the
band condition. -/
theorem vwap_two_candle_cex :
    ([(⟨100, 100, 100, 10⟩ : VCandle)].length < 2) ∧
    vwap_check_signal (calculate_vwap [] "X" [⟨100, 100, 100, 10⟩]) "X" 101 =
      some Signal.BUY := by
  constructor
  · decide
  · norm_num [vwap_check_signal, calculate_vwap, vwapOf, hlc3, dictGet,
      dictSet]

/-- C7 amended: the VWAP detector returns BUY exactly when the current price
is strictly above the stored session VWAP, SELL exactly when strictly
below, and NONE exactly on equality or when no VWAP has been stored; there
is no deviation band, previous-close condition, or two-candle minimum. -/
theorem vwap_signal_characterization (store : List (String × ℚ))
    (sym : String) (ltp : ℚ) :
    (∀ v, dictGet store sym = some v →
      (vwap_check_signal store sym ltp = some Signal.BUY ↔ v < ltp) ∧
      (vwap_check_signal store sym ltp = some Signal.SELL ↔ ltp < v) ∧
      (vwap_check_signal store sym ltp = none ↔ ltp = v)) ∧
    (dictGet store sym = none → vwap_check_signal store sym ltp = none) := by
  constructor
  · intro v hv
    rcases lt_trichotomy ltp v with h | h | h
    · refine ⟨?_, ?_, ?_⟩ <;>
        simp [vwap_check_signal, hv, h, lt_asymm h, ne_of_lt h]
    · refine ⟨?_, ?_, ?_⟩ <;> simp [vwap_check_signal, hv, h]
    · refine ⟨?_, ?_, ?_⟩ <;>
        simp [vwap_check_signal, hv, h, lt_asymm h, ne_of_gt h]
  · intro hn
    simp [vwap_check_signal, hn]

/-- Witness for the amended C7 with a stored VWAP of 100 and a price of
101. -/
theorem vwap_signal_characterization_witness :
    dictGet [("X", (100 : ℚ))] "X" = some 100 ∧
    (vwap_check_signal [("X", (100 : ℚ))] "X" 101 = some Signal.BUY ↔
      (100 : ℚ) < 101) :=
  ⟨by decide,
    ((vwap_signal_characterization [("X", (100 : ℚ))] "X" 101).1 100
      (by decide)).1⟩

/-- C8: a position is created (with the returned order id) only on a
response with code 200; on any other response, a falsy response or a raised
transport exception the position tracker is unchanged and the failure is
logged. -/
theorem order_failure_atomicity (sym : String) (sig : Signal) (price : ℚ)
    (result : PlaceResult) (positions : List (String × Position))
    (h : dictGet positions sym = none) :
    (∀ id, result = .resp 200 id →
      (execute_trade true sym sig price result positions).positions =
        dictSet positions sym ⟨sig, TRADE_QUANTITY, price, id⟩ ∧
      (execute_trade true sym sig price result positions).logs =
        [LogEvent.attemptOrder, LogEvent.orderPlaced]) ∧
    ((∀ id, result ≠ .resp 200 id) →
      (execute_trade true sym sig price result positions).positions =
        positions ∧
      ((execute_trade true sym sig price result positions).logs =
          [LogEvent.attemptOrder, LogEvent.orderFailed] ∨
        (execute_trade true sym sig price result positions).logs =
          [LogEvent.attemptOrder, LogEvent.orderException])) := by
  constructor
  · rintro id rfl
    simp [execute_trade, h]
  · intro hne
    cases result with
    | resp code id =>
      have hc : code ≠ 200 := fun e => hne id (by rw [e])
      simp [execute_trade, h, hc]
    | respNone => simp [execute_trade, h]
    | raised => simp [execute_trade, h]

/-- Witness for C8: a response with code 500 creates no position and logs
the failure. -/
theorem order_failure_atomicity_witness :
    dictGet ([] : List (String × Position)) "X" = none ∧
    (execute_trade true "X" Signal.BUY 100 (.resp 500 none) []).positions =
      [] ∧
    ((execute_trade true "X" Signal.BUY 100 (.resp 500 none) []).logs =
        [LogEvent.attemptOrder, LogEvent.orderFailed] ∨
      (execute_trade true "X" Signal.BUY 100 (.resp 500 none) []).logs =
        [LogEvent.attemptOrder, LogEvent.orderException]) := by
  refine ⟨rfl, ?_⟩
  have h := (order_failure_atomicity "X" Signal.BUY 100 (.resp 500 none) []
    rfl).2 (fun id e => by simp at e)
  exact ⟨h.1, h.2⟩

/-- C9: the bracket-order payload derived from a BUY signal at trigger price
P carries a stop-loss offset of 0.0025 × P and a target offset of
0.005 × P, both rounded to two decimal places. -/
theorem order_intent_offsets (sym : String) (price : ℚ)
    (result : PlaceResult) (positions : List (String × Position))
    (h : dictGet positions sym = none) :
    ((execute_trade true sym .BUY price result positions).submitted).map
        (·.stopLoss) = some (pyRound2 (25/10000 * price)) ∧
    ((execute_trade true sym .BUY price result positions).submitted).map
        (·.takeProfit) = some (pyRound2 (5/1000 * price)) := by
  have e1 : price * (STOP_LOSS_PERCENTAGE / 100) = 25/10000 * price := by
    unfold STOP_LOSS_PERCENTAGE; ring
  have e2 : price * (TARGET_PERCENTAGE / 100) = 5/1000 * price := by
    unfold TARGET_PERCENTAGE; ring
  cases result with
  | resp code id =>
    by_cases hc : code = 200 <;> simp [execute_trade, h, hc, e1, e2]
  | respNone => simp [execute_trade, h, e1, e2]
  | raised => simp [execute_trade, h, e1, e2]

/-- Witness for C9 at P = 100: stop-loss offset 0.25, target offset 0.50. -/
theorem order_intent_offsets_witness :
    dictGet ([] : List (String × Position)) "X" = none ∧
    ((execute_trade true "X" .BUY 100 (.resp 200 none) []).submitted).map
        (·.stopLoss) = some (1/4 : ℚ) ∧
    ((execute_trade true "X" .BUY 100 (.resp 200 none) []).submitted).map
        (·.takeProfit) = some (1/2 : ℚ) := by
  have h := order_intent_offsets "X" 100 (.resp 200 none) [] rfl
  refine ⟨rfl, ?_, ?_⟩
  · rw [h.1]
    norm_num [pyRound2, roundHalfEven]
  · rw [h.2]
    norm_num [pyRound2, roundHalfEven]

/-- C10 counterexample: at 03:01 UTC, before the 03:45 session open, a
scheduler iteration still finalizes a stale live candle into the history —
the loop does aggregation work before the session-open boundary. -/
theorem pre_open_work_cex :
    10860 % 86400 < market_open_time_utc ∧
    dictGet ((schedulerStep 10860 respNoneAll true stC10).1).history "X" =
      some [c10candle] := by
  decide

/-- C10 amended: the loop gates only on the session-close boundary — an
iteration exits exactly when the UTC time of day has reached
`market_close_time_utc`, and any earlier iteration (including before the
session opens) runs the full boundary pass once the minute advances. -/
theorem scheduler_no_open_gating (now : ℕ) (resp : String → PlaceResult)
    (ci : Bool) (st : SchedState) :
    ((schedulerStep now resp ci st).2 = true ↔
      market_close_time_utc ≤ now % 86400) ∧
    (now % 86400 < market_close_time_utc → st.lastMinuteChecked = none →
      (schedulerStep now resp ci st).1 = schedulerPass now resp ci st) := by
  by_cases h : market_close_time_utc ≤ now % 86400
  · constructor
    · simp [schedulerStep, h]
    · intro h'
      omega
  · constructor
    · simp only [schedulerStep]
      rw [if_neg h]
      cases hl : st.lastMinuteChecked with
      | none => simpa using h
      | some lm =>
        simp only
        split <;> simpa using h
    · intro _ hl
      simp [schedulerStep, if_neg h, hl]

/-- Witness for the amended C10 at the pre-open instant 03:01 UTC. -/
theorem scheduler_no_open_gating_witness :
    (10860 % 86400 < market_close_time_utc) ∧
    (schedulerStep 10860 respNoneAll true stC10).1 =
      schedulerPass 10860 respNoneAll true stC10 :=
  ⟨by decide,
    (scheduler_no_open_gating 10860 respNoneAll true stC10).2 (by decide) rfl⟩

end GanguPro
